import Mathlib

/-!
Verification of the SmartLearning (EduQuest) email-scheduling and
question-delivery logic.

This file gives a shallow embedding, in Lean 4, of the core server logic of
the repository:

* the JavaScript string primitives the scheduler relies on
  (`split`, `parseInt` with its NaN behaviour, `toLowerCase`,
  `startsWith`, truthiness of nullable strings);
* the scheduler time check `isTimeToSendEmail` (src/server/index.ts);
* the daily delivery scan `sendDailyQuestionsToAllUsers`
  (src/server/index.ts), modelled as an explicit state transformer over
  the `student_subjects` table, with a per-user fault oracle standing for
  the exceptions the per-user try/catch may observe;
* the re-entrancy structure of the two periodic senders (the flag-guarded
  `sendQuestionsToAllEligibleUsers` of src/server/routes.ts and the
  unguarded `sendDailyQuestionsToAllUsers` of src/server/index.ts),
  modelled as small-step transition systems;
* the question generator (`generateMathQuestion`,
  `generateEnglishQuestion`, `getDailyQuestions`), with the outcomes of
  the `Math.random()` draws passed explicitly;
* the email dispatcher `sendDailyQuestions` (src/server/email.ts), with
  the provider modelled as an oracle from payloads to outcomes;
* the `GET /api/questions` HTTP handlers, both the current one
  (src/server/routes.ts) and the earlier revision that returns a
  payment-required status (src/unnamed/part_008).

JavaScript numbers are modelled by `Nat`/`Int`, with `NaN` represented as
`none : Option Int`; nullable database columns are `Option` types; thrown
exceptions are explicit outcome values.
-/

namespace SmartLearning

/-! ## JavaScript string primitives -/

/-- Model of `String.prototype.toLowerCase` restricted to ASCII, applied
character-wise (all subject and meridiem strings in the repository are
ASCII). -/
def jsToLowerChar (c : Char) : Char :=
  if 'A' ≤ c ∧ c ≤ 'Z' then Char.ofNat (c.toNat + 32) else c

/-- `subject.toLowerCase()` as used in `getDailyQuestions`. -/
def jsToLowerCase (s : String) : String :=
  ⟨s.data.map jsToLowerChar⟩

/-- `p` is a leading segment of `s` (character-list form of
`String.prototype.startsWith`). -/
def listIsLeading : List Char → List Char → Bool
  | [], _ => true
  | _ :: _, [] => false
  | p :: ps, c :: cs => p = c && listIsLeading ps cs

/-- Model of `s.startsWith(p)` from JavaScript. -/
def jsStartsWith (s p : String) : Bool :=
  listIsLeading p.data s.data

/-- Model of `String.prototype.split` with a single-character separator:
`"".split(sep)` is `[""]`, separators delimit (possibly empty) fields. -/
def jsSplitChars (sep : Char) : List Char → List (List Char)
  | [] => [[]]
  | c :: cs =>
    if c = sep then [] :: jsSplitChars sep cs
    else
      match jsSplitChars sep cs with
      | [] => [[c]]
      | h :: t => (c :: h) :: t

/-- The numeric value of an ASCII digit character, `none` otherwise. -/
def digitVal? (c : Char) : Option Nat :=
  if '0' ≤ c ∧ c ≤ '9' then some (c.toNat - 48) else none

/-- The maximal run of leading digits of a character list, as digit
values. -/
def leadingDigits : List Char → List Nat
  | [] => []
  | c :: cs =>
    match digitVal? c with
    | some d => d :: leadingDigits cs
    | none => []

/-- Decimal value of a digit list (most significant first). -/
def digitsToNat (l : List Nat) : Nat :=
  l.foldl (fun a d => 10 * a + d) 0

/-- Model of JavaScript `parseInt` on a character list: skip leading
whitespace, read an optional sign, then the longest run of digits; the
result is `none` exactly when JavaScript would produce `NaN`. -/
def jsParseIntChars (l : List Char) : Option Int :=
  match l.dropWhile (fun c => c.isWhitespace) with
  | [] => none
  | c :: rest =>
    if c = '-' then
      let ds := leadingDigits rest
      if ds.isEmpty then none else some (-(digitsToNat ds : Int))
    else if c = '+' then
      let ds := leadingDigits rest
      if ds.isEmpty then none else some (digitsToNat ds : Int)
    else
      let ds := leadingDigits (c :: rest)
      if ds.isEmpty then none else some (digitsToNat ds : Int)

/-- JavaScript truthiness of a nullable string column: `null`/`undefined`
and the empty string are falsy. -/
def jsOptTruthy : Option String → Bool
  | none => false
  | some s => !(s.data.isEmpty)

/-! ### Lemmas about the string primitives -/

theorem listIsLeading_append (p r : List Char) :
    listIsLeading p (p ++ r) = true := by
  induction p with
  | nil => rfl
  | cons c cs ih => simp [listIsLeading, ih]

theorem jsSplitChars_ne_nil (sep : Char) (l : List Char) :
    jsSplitChars sep l ≠ [] := by
  cases l with
  | nil => simp [jsSplitChars]
  | cons c cs =>
    by_cases h : c = sep
    · simp [jsSplitChars, h]
    · simp only [jsSplitChars, if_neg h]
      cases jsSplitChars sep cs <;> simp

theorem jsSplitChars_no_sep (sep : Char) (l : List Char)
    (h : sep ∉ l) : jsSplitChars sep l = [l] := by
  induction l with
  | nil => rfl
  | cons c cs ih =>
    have hc : ¬(c = sep) := fun hcs => h (hcs ▸ List.mem_cons_self c cs)
    have hcs : sep ∉ cs := fun hm => h (List.mem_cons_of_mem c hm)
    simp only [jsSplitChars, if_neg hc, ih hcs]

theorem jsSplitChars_append (sep : Char) (a b : List Char)
    (h : sep ∉ a) : jsSplitChars sep (a ++ sep :: b) = a :: jsSplitChars sep b := by
  induction a with
  | nil => simp [jsSplitChars]
  | cons c cs ih =>
    have hc : ¬(c = sep) := fun hcs => h (hcs ▸ List.mem_cons_self c cs)
    have hcs : sep ∉ cs := fun hm => h (List.mem_cons_of_mem c hm)
    simp only [List.cons_append, jsSplitChars, if_neg hc, List.append_eq, ih hcs]

/-- The ASCII digit character for a value `< 10`. -/
def digitChar (n : Nat) : Char := Char.ofNat (48 + n)

/-- Two-digit zero-padded rendering of `n ≤ 99`, the shape in which the
client time picker stores hours and minutes (schema regex
`(0[1-9]|1[0-2]):[0-5][0-9] (AM|PM)`). -/
def pad2 (n : Nat) : String := ⟨[digitChar (n / 10), digitChar (n % 10)]⟩

/-- A stored preferred-time string `"HH:MM AM"` / `"HH:MM PM"`. -/
def fmtTime (h m : Nat) (mer : String) : String :=
  ⟨((pad2 h).data ++ ':' :: (pad2 m).data) ++ ' ' :: mer.data⟩

theorem digitChar_facts (d : Nat) (h : d ≤ 9) :
    digitVal? (digitChar d) = some d ∧ (digitChar d).isWhitespace = false ∧
    digitChar d ≠ '-' ∧ digitChar d ≠ '+' ∧ digitChar d ≠ ' ' ∧ digitChar d ≠ ':' := by
  interval_cases d <;> exact ⟨rfl, rfl, by decide, by decide, by decide, by decide⟩

theorem jsParseIntChars_two_digits (d1 d2 : Nat) (h1 : d1 ≤ 9) (h2 : d2 ≤ 9) :
    jsParseIntChars [digitChar d1, digitChar d2] = some ((10 * d1 + d2 : Nat) : Int) := by
  obtain ⟨hv1, hw1, hm1, hp1, -, -⟩ := digitChar_facts d1 h1
  obtain ⟨hv2, hw2, -, -, -, -⟩ := digitChar_facts d2 h2
  have hdrop : List.dropWhile (fun c => c.isWhitespace) [digitChar d1, digitChar d2]
      = [digitChar d1, digitChar d2] := by
    rw [List.dropWhile_cons_of_neg]
    simp [hw1]
  have hld : leadingDigits [digitChar d1, digitChar d2] = [d1, d2] := by
    simp [leadingDigits, hv1, hv2]
  unfold jsParseIntChars
  rw [hdrop]
  simp only [if_neg hm1, if_neg hp1, hld]
  norm_num [digitsToNat]

theorem jsParseIntChars_pad2 (n : Nat) (h : n ≤ 99) :
    jsParseIntChars (pad2 n).data = some (n : Int) := by
  have h1 : n / 10 ≤ 9 := by omega
  have h2 : n % 10 ≤ 9 := by omega
  have := jsParseIntChars_two_digits (n / 10) (n % 10) h1 h2
  have hn : 10 * (n / 10) + n % 10 = n := by omega
  rw [show (pad2 n).data = [digitChar (n / 10), digitChar (n % 10)] from rfl, this, hn]

/-! ## The scheduler time check (src/server/index.ts, `isTimeToSendEmail`)

The source splits the stored preferred time on a space into `time` and
`period`, splits `time` on a colon into `hours` and `minutes`, applies
`parseInt`, adds 12 for a `PM` hour other than 12, maps `12 AM` to 0, and
finally compares the current wall-clock hour and minute against the pair
with strict equality.  A `NaN` hour or minute (`none` here) makes both
strict comparisons false in JavaScript, which the `Option` equality below
reproduces. -/

/-- `const [time, period] = preferredTime.split(' ')`: the first field
always exists, the second is `undefined` (`none`) when there is no
space. -/
def splitTimePeriod (pt : String) : List Char × Option (List Char) :=
  let parts := jsSplitChars ' ' pt.data
  (parts.headD [], parts.get? 1)

/-- `const [hours, minutes] = time.split(':')`. -/
def splitHM (timePart : List Char) : List Char × Option (List Char) :=
  let tparts := jsSplitChars ':' timePart
  (tparts.headD [], tparts.get? 1)

/-- The two meridiem adjustments of the source:
`if (period === 'PM' && hour !== 12) hour += 12;` (note `NaN !== 12` is
true, and `NaN + 12` is `NaN`) followed by
`if (period === 'AM' && hour === 12) hour = 0;`. -/
def hourAfterMeridiem (period : Option (List Char)) (hour0 : Option Int) : Option Int :=
  let hour1 := if period = some "PM".data ∧ ¬hour0 = some 12 then
      hour0.map (fun x => x + 12)
    else hour0
  if period = some "AM".data ∧ hour1 = some 12 then some 0 else hour1

/-- The 24-hour hour the scheduler derives from a stored preferred time;
`none` models `NaN`. -/
def parsedHour (pt : String) : Option Int :=
  hourAfterMeridiem (splitTimePeriod pt).2
    (jsParseIntChars (splitHM (splitTimePeriod pt).1).1)

/-- The minute the scheduler derives from a stored preferred time
(`parseInt(minutes)`, where a missing component is `undefined` and parses
to `NaN`). -/
def parsedMinute (pt : String) : Option Int :=
  match (splitHM (splitTimePeriod pt).1).2 with
  | none => none
  | some ms => jsParseIntChars ms

/-- `isTimeToSendEmail` from src/server/index.ts: true exactly when the
current hour and minute strictly equal the parsed pair (a `NaN`
component can never compare equal). -/
def isTimeToSendEmail (preferredTime : String) (currentHour currentMinute : Int) : Bool :=
  decide (parsedHour preferredTime = some currentHour) &&
  decide (parsedMinute preferredTime = some currentMinute)

/-- The 24-hour hour the specification assigns to `"HH:MM AM/PM"`:
`12 AM` is hour 0, `12 PM` is hour 12, any other `PM` hour adds 12. -/
def expected24Hour (h : Nat) (mer : String) : Int :=
  if mer = "AM" then (if h = 12 then 0 else (h : Int))
  else (if h = 12 then 12 else (h : Int) + 12)

theorem space_not_mem_time_block (h m : Nat) (hh : h ≤ 99) (hm : m ≤ 99) :
    ' ' ∉ (pad2 h).data ++ ':' :: (pad2 m).data := by
  obtain ⟨-, -, -, -, s1, -⟩ := digitChar_facts (h / 10) (by omega)
  obtain ⟨-, -, -, -, s2, -⟩ := digitChar_facts (h % 10) (by omega)
  obtain ⟨-, -, -, -, s3, -⟩ := digitChar_facts (m / 10) (by omega)
  obtain ⟨-, -, -, -, s4, -⟩ := digitChar_facts (m % 10) (by omega)
  intro hmem
  have hflat : ' ' = digitChar (h / 10) ∨ ' ' = digitChar (h % 10) ∨ ' ' = ':' ∨
      ' ' = digitChar (m / 10) ∨ ' ' = digitChar (m % 10) := by
    simpa [pad2] using hmem
  rcases hflat with h1 | h1 | h1 | h1 | h1
  · exact s1 h1.symm
  · exact s2 h1.symm
  · exact absurd h1 (by decide)
  · exact s3 h1.symm
  · exact s4 h1.symm

theorem colon_not_mem_pad2 (n : Nat) (hn : n ≤ 99) : ':' ∉ (pad2 n).data := by
  obtain ⟨-, -, -, -, -, c1⟩ := digitChar_facts (n / 10) (by omega)
  obtain ⟨-, -, -, -, -, c2⟩ := digitChar_facts (n % 10) (by omega)
  intro hmem
  have hflat : ':' = digitChar (n / 10) ∨ ':' = digitChar (n % 10) := by
    simpa [pad2] using hmem
  rcases hflat with h1 | h1
  · exact c1 h1.symm
  · exact c2 h1.symm

theorem hourAfterMeridiem_AM (x : Option Int) :
    hourAfterMeridiem (some "AM".data) x = if x = some 12 then some 0 else x := by
  unfold hourAfterMeridiem
  have hpm : ¬(some "AM".data = some "PM".data ∧ ¬x = some 12) :=
    fun hc => absurd hc.1 (by decide)
  rw [if_neg hpm]
  by_cases h12 : x = some 12
  · rw [if_pos ⟨rfl, h12⟩, if_pos h12]
  · rw [if_neg (fun hc => h12 hc.2), if_neg h12]

theorem hourAfterMeridiem_PM (x : Option Int) :
    hourAfterMeridiem (some "PM".data) x
      = if x = some 12 then some 12 else x.map (fun v => v + 12) := by
  unfold hourAfterMeridiem
  by_cases h12 : x = some 12
  · have hc1 : ¬(some "PM".data = some "PM".data ∧ ¬x = some 12) :=
      fun hc => hc.2 h12
    have hc2 : ¬(some "PM".data = some "AM".data ∧ x = some 12) :=
      fun hc => absurd hc.1 (by decide)
    rw [if_neg hc1, if_neg hc2, if_pos h12, h12]
  · have hc1 : some "PM".data = some "PM".data ∧ ¬x = some 12 := ⟨rfl, h12⟩
    have hc2 : ¬(some "PM".data = some "AM".data ∧
        Option.map (fun x => x + 12) x = some 12) :=
      fun hc => absurd hc.1 (by decide)
    rw [if_pos hc1, if_neg hc2, if_neg h12]

theorem splitTimePeriod_fmtTime (h m : Nat) (mer : String)
    (hh : h ≤ 99) (hm : m ≤ 99) (hnos : ' ' ∉ mer.data) :
    splitTimePeriod (fmtTime h m mer)
      = ((pad2 h).data ++ ':' :: (pad2 m).data, some mer.data) := by
  have hsplit1 : jsSplitChars ' ' (fmtTime h m mer).data
      = ((pad2 h).data ++ ':' :: (pad2 m).data) :: [mer.data] := by
    rw [show (fmtTime h m mer).data
        = ((pad2 h).data ++ ':' :: (pad2 m).data) ++ ' ' :: mer.data from rfl]
    rw [jsSplitChars_append ' ' _ _ (space_not_mem_time_block h m hh hm)]
    rw [jsSplitChars_no_sep ' ' _ hnos]
  simp [splitTimePeriod, hsplit1]

theorem splitHM_time_block (h m : Nat) (hh : h ≤ 99) (hm : m ≤ 99) :
    splitHM ((pad2 h).data ++ ':' :: (pad2 m).data)
      = ((pad2 h).data, some (pad2 m).data) := by
  have hsplit2 : jsSplitChars ':' ((pad2 h).data ++ ':' :: (pad2 m).data)
      = (pad2 h).data :: [(pad2 m).data] := by
    rw [jsSplitChars_append ':' _ _ (colon_not_mem_pad2 h hh)]
    rw [jsSplitChars_no_sep ':' _ (colon_not_mem_pad2 m hm)]
  simp [splitHM, hsplit2]

theorem parsed_fmtTime (h m : Nat) (mer : String)
    (hh : h ≤ 99) (hm : m ≤ 99) (hmer : mer = "AM" ∨ mer = "PM") :
    parsedHour (fmtTime h m mer) = some (expected24Hour h mer) ∧
    parsedMinute (fmtTime h m mer) = some (m : Int) := by
  have hnos : ' ' ∉ mer.data := by rcases hmer with rfl | rfl <;> decide
  have h1 := splitTimePeriod_fmtTime h m mer hh hm hnos
  have h2 := splitHM_time_block h m hh hm
  have hhour0 : jsParseIntChars (pad2 h).data = some (h : Int) :=
    jsParseIntChars_pad2 h hh
  have hminp : jsParseIntChars (pad2 m).data = some (m : Int) :=
    jsParseIntChars_pad2 m hm
  constructor
  · simp only [parsedHour, h1, h2, hhour0]
    rcases hmer with rfl | rfl
    · rw [hourAfterMeridiem_AM]
      by_cases h12 : h = 12
      · subst h12
        simp [expected24Hour]
      · have hne : ¬(some (h : Int) = some (12 : Int)) := by
          simp only [Option.some_inj]
          exact_mod_cast h12
        rw [if_neg hne]
        simp [expected24Hour, h12]
    · rw [hourAfterMeridiem_PM]
      by_cases h12 : h = 12
      · subst h12
        simp [expected24Hour]
      · have hne : ¬(some (h : Int) = some (12 : Int)) := by
          simp only [Option.some_inj]
          exact_mod_cast h12
        rw [if_neg hne]
        simp [expected24Hour, h12]
  · simp only [parsedMinute, h1, h2, hminp]

/-- C3: for every stored `"HH:MM AM/PM"` preferred time, the scheduler
time check converts it to the correct 24-hour pair (`12:MM AM` to hour 0,
`12:MM PM` to hour 12, other `PM` hours add 12) and returns `true`
exactly when the current wall-clock hour and minute both equal that pair;
in particular (see the witness) `"09:00 AM"` matches at 09:00 and fails
at 08:59 and 09:01. -/
theorem isTimeToSendEmail_exact_match (h m : Nat) (mer : String)
    (hh1 : 1 ≤ h) (hh2 : h ≤ 12) (hm : m ≤ 59) (hmer : mer = "AM" ∨ mer = "PM")
    (ch cm : Int) :
    isTimeToSendEmail (fmtTime h m mer) ch cm = true ↔
      (ch = expected24Hour h mer ∧ cm = (m : Int)) := by
  obtain ⟨hhr, hmin⟩ := parsed_fmtTime h m mer (by omega) (by omega) hmer
  unfold isTimeToSendEmail
  rw [hhr, hmin]
  simp only [Bool.and_eq_true, decide_eq_true_eq, Option.some_inj]
  constructor
  · rintro ⟨a, b⟩
    exact ⟨a.symm, b.symm⟩
  · rintro ⟨a, b⟩
    exact ⟨a.symm, b.symm⟩

/-- Witness for C3 at the concrete preferred time `"09:00 AM"`. -/
theorem isTimeToSendEmail_exact_match_witness :
    isTimeToSendEmail (fmtTime 9 0 "AM") 9 0 = true ∧
    isTimeToSendEmail (fmtTime 9 0 "AM") 8 59 = false ∧
    isTimeToSendEmail (fmtTime 9 0 "AM") 9 1 = false := by
  have hiff := isTimeToSendEmail_exact_match 9 0 "AM" (by decide) (by decide)
    (by decide) (Or.inl rfl)
  refine ⟨(hiff 9 0).mpr ⟨by decide, by decide⟩, ?_, ?_⟩
  · have := hiff 8 59
    have hne : ¬((8 : Int) = expected24Hour 9 "AM" ∧ (59 : Int) = ((0 : Nat) : Int)) := by
      decide
    cases hb : isTimeToSendEmail (fmtTime 9 0 "AM") 8 59
    · rfl
    · exact absurd (this.mp hb) hne
  · have := hiff 9 1
    have hne : ¬((9 : Int) = expected24Hour 9 "AM" ∧ (1 : Int) = ((0 : Nat) : Int)) := by
      decide
    cases hb : isTimeToSendEmail (fmtTime 9 0 "AM") 9 1
    · rfl
    · exact absurd (this.mp hb) hne

/-- C9: the scheduler time check is a total boolean function of its
string input (the embedding is a Lean function, so it is defined — and
in particular never throws — on every string), and whenever the parsed
hour or the parsed minute is `NaN` (`none`), the check returns `false`. -/
theorem isTimeToSendEmail_total_nan_false (s : String) (ch cm : Int) :
    (isTimeToSendEmail s ch cm = true ∨ isTimeToSendEmail s ch cm = false) ∧
    ((parsedHour s = none ∨ parsedMinute s = none) →
      isTimeToSendEmail s ch cm = false) := by
  constructor
  · cases isTimeToSendEmail s ch cm
    · exact Or.inr rfl
    · exact Or.inl rfl
  · intro hnan
    unfold isTimeToSendEmail
    rcases hnan with hn | hn <;> rw [hn] <;> simp

/-- Witness for C9 at a string that is not of the `"HH:MM AM/PM"` form. -/
theorem isTimeToSendEmail_total_nan_false_witness :
    isTimeToSendEmail "garbage" 0 0 = false :=
  (isTimeToSendEmail_total_nan_false "garbage" 0 0).2 (Or.inl (by decide))

/-! ## The question generator (src/unnamed/part_012)

`Math.random()` outcomes are passed explicitly: `Math.floor(Math.random()
* n)` is modelled by `floorRand r n = r % n`, whose range as `r` varies is
exactly the range `0 .. n-1` of the source expression. -/

/-- A generated question (the shape produced by the generator and by the
`questions` table of shared/schema.ts). -/
structure Question where
  id : Nat
  subject : String
  grade : Nat
  question : String
  answer : String
  explanation : String
deriving DecidableEq

/-- The `Math.random()` draws consumed while generating one question:
two operands, the operation index, the random id, and (for english) the
template index. -/
structure QDraws where
  r1 : Nat
  r2 : Nat
  rop : Nat
  rid : Nat
  rq : Nat
deriving DecidableEq

/-- `Math.floor(Math.random() * n)` for a draw `r`. -/
def floorRand (r n : Nat) : Nat := r % n

/-- The operand pair chosen by the grade switch of
`generateMathQuestion`: 1–10 for grade 1, 1–20 for grade 2, 1–50
otherwise. -/
def mathNums (grade : Nat) (d : QDraws) : Nat × Nat :=
  match grade with
  | 1 => (floorRand d.r1 10 + 1, floorRand d.r2 10 + 1)
  | 2 => (floorRand d.r1 20 + 1, floorRand d.r2 20 + 1)
  | _ => (floorRand d.r1 50 + 1, floorRand d.r2 50 + 1)

/-- The operation chosen by `operations[Math.floor(Math.random() * k)]`
with `operations = ['+', '-', '*']`: `k = 2` (only `+` and `-`) for
grades 1 and 2, `k = 3` otherwise. -/
def mathOp (grade : Nat) (d : QDraws) : String :=
  let operations := ["+", "-", "*"]
  match grade with
  | 1 => operations.getD (floorRand d.rop 2) "+"
  | 2 => operations.getD (floorRand d.rop 2) "+"
  | _ => operations.getD (floorRand d.rop 3) "+"

/-- The subtraction operands after the swap
`if (num2 > num1) [num1, num2] = [num2, num1];`. -/
def subNums (grade : Nat) (d : QDraws) : Nat × Nat :=
  let p := mathNums grade d
  if p.2 > p.1 then (p.2, p.1) else p

/-- `generateMathQuestion` from src/unnamed/part_012.  The subtraction
answer `String(num1 - num2)` is computed in `Int` to expose its sign; the
unreachable `default: throw` branch of the operation switch is dropped
because `mathOp` only produces the three listed operations. -/
def generateMathQuestion (grade : Nat) (d : QDraws) : Question :=
  let p := mathNums grade d
  let num1 := p.1
  let num2 := p.2
  let operation := mathOp grade d
  if operation = "+" then
    { id := floorRand d.rid 1000000, subject := "math", grade := grade,
      question := "What is " ++ toString num1 ++ " + " ++ toString num2 ++ "?",
      answer := toString (num1 + num2),
      explanation := "To add " ++ toString num1 ++ " and " ++ toString num2 ++
        ", we combine the quantities. " ++ toString num1 ++ " plus " ++
        toString num2 ++ " equals " ++ toString (num1 + num2) ++ "." }
  else if operation = "-" then
    let q := subNums grade d
    { id := floorRand d.rid 1000000, subject := "math", grade := grade,
      question := "What is " ++ toString q.1 ++ " - " ++ toString q.2 ++ "?",
      answer := toString ((q.1 : Int) - (q.2 : Int)),
      explanation := "To subtract " ++ toString q.2 ++ " from " ++ toString q.1 ++
        ", we take away " ++ toString q.2 ++ " from " ++ toString q.1 ++
        ", leaving us with " ++ toString ((q.1 : Int) - (q.2 : Int)) ++ "." }
  else
    { id := floorRand d.rid 1000000, subject := "math", grade := grade,
      question := "What is " ++ toString num1 ++ " × " ++ toString num2 ++ "?",
      answer := toString (num1 * num2),
      explanation := "To multiply " ++ toString num1 ++ " by " ++ toString num2 ++
        ", we add " ++ toString num1 ++ " to itself " ++ toString num2 ++
        " times, giving us " ++ toString (num1 * num2) ++ "." }

/-- One entry of the fixed template bank of `generateEnglishQuestion`
(the `options` are present in the source templates but not copied to the
generated question). -/
structure EnglishTemplate where
  question : String
  options : List String
  answer : String
  explanation : String

/-- The two-template bank of `generateEnglishQuestion`. -/
def englishTemplates : List EnglishTemplate :=
  [{ question := "Which word is a noun?",
     options := ["run", "happy", "book", "quickly"],
     answer := "book",
     explanation := "A noun is a person, place, thing, or idea. Book is a thing, making it a noun." },
   { question := "Which word means the opposite of happy?",
     options := ["sad", "glad", "mad", "bad"],
     answer := "sad",
     explanation := "The antonym (opposite) of happy is sad." }]

/-- `generateEnglishQuestion` from src/unnamed/part_012: samples
`questions[Math.floor(Math.random() * questions.length)]`. -/
def generateEnglishQuestion (grade : Nat) (d : QDraws) : Question :=
  let sel := englishTemplates.getD (floorRand d.rq englishTemplates.length)
    { question := "", options := [], answer := "", explanation := "" }
  { id := floorRand d.rid 1000000, subject := "english", grade := grade,
    question := sel.question, answer := sel.answer,
    explanation := sel.explanation }

/-- The body of the `for (let i = 0; i < count; i++)` loop of
`getDailyQuestions` after `n` iterations: a push for a recognized
(lower-cased) subject, nothing otherwise. -/
def getDailyQuestionsAux (subject : String) (grade : Nat) (rng : Nat → QDraws) :
    Nat → List Question
  | 0 => []
  | n + 1 =>
    getDailyQuestionsAux subject grade rng n ++
      (if jsToLowerCase subject = "math" then [generateMathQuestion grade (rng n)]
       else if jsToLowerCase subject = "english" then
         [generateEnglishQuestion grade (rng n)]
       else [])

/-- `getDailyQuestions` from src/unnamed/part_012, with the `i`-th
iteration of the loop consuming the draws `rng i`. -/
def getDailyQuestions (subject : String) (grade : Nat) (count : Nat)
    (rng : Nat → QDraws) : List Question :=
  getDailyQuestionsAux subject grade rng count

theorem getDailyQuestionsAux_congr (s1 s2 : String)
    (h : jsToLowerCase s1 = jsToLowerCase s2) (grade : Nat) (rng : Nat → QDraws) :
    ∀ n, getDailyQuestionsAux s1 grade rng n = getDailyQuestionsAux s2 grade rng n := by
  intro n
  induction n with
  | zero => rfl
  | succ k ih => simp only [getDailyQuestionsAux, ih, h]

theorem getDailyQuestionsAux_len_math (subject : String)
    (hs : jsToLowerCase subject = "math") (grade : Nat) (rng : Nat → QDraws) :
    ∀ n, (getDailyQuestionsAux subject grade rng n).length = n := by
  intro n
  induction n with
  | zero => rfl
  | succ k ih =>
    simp only [getDailyQuestionsAux, if_pos hs, List.length_append, ih,
      List.length_singleton]

theorem getDailyQuestionsAux_len_english (subject : String)
    (hs : jsToLowerCase subject = "english") (grade : Nat) (rng : Nat → QDraws) :
    ∀ n, (getDailyQuestionsAux subject grade rng n).length = n := by
  intro n
  have hne : ¬jsToLowerCase subject = "math" := by
    rw [hs]
    decide
  induction n with
  | zero => rfl
  | succ k ih =>
    simp only [getDailyQuestionsAux, if_neg hne, if_pos hs, List.length_append,
      ih, List.length_singleton]

theorem getDailyQuestionsAux_unrecognized (subject : String)
    (h1 : ¬jsToLowerCase subject = "math")
    (h2 : ¬jsToLowerCase subject = "english") (grade : Nat) (rng : Nat → QDraws) :
    ∀ n, getDailyQuestionsAux subject grade rng n = [] := by
  intro n
  induction n with
  | zero => rfl
  | succ k ih =>
    simp only [getDailyQuestionsAux, if_neg h1, if_neg h2, ih, List.append_nil]

/-- C6: whenever `generateMathQuestion` picks subtraction, the operands
are ordered so the minuend is at least the subtrahend, the answer value
is non-negative, and the rendered answer string is that value. -/
theorem subtraction_answer_nonneg (grade : Nat) (d : QDraws)
    (hop : mathOp grade d = "-") :
    (subNums grade d).2 ≤ (subNums grade d).1 ∧
    (0 : Int) ≤ ((subNums grade d).1 : Int) - ((subNums grade d).2 : Int) ∧
    (generateMathQuestion grade d).answer
      = toString (((subNums grade d).1 : Int) - ((subNums grade d).2 : Int)) := by
  have hle : (subNums grade d).2 ≤ (subNums grade d).1 := by
    unfold subNums
    by_cases hgt : (mathNums grade d).2 > (mathNums grade d).1 <;>
      simp [hgt] <;> omega
  refine ⟨hle, ?_, ?_⟩
  · have : ((subNums grade d).2 : Int) ≤ ((subNums grade d).1 : Int) := by
      exact_mod_cast hle
    omega
  · simp only [generateMathQuestion, hop]
    rw [if_neg (show ¬("-" : String) = "+" by decide), if_pos True.intro]

/-- Witness for C6: grade 1 with draws forcing subtraction of 4 from 8. -/
theorem subtraction_answer_nonneg_witness :
    (subNums 1 ⟨3, 7, 1, 0, 0⟩).2 ≤ (subNums 1 ⟨3, 7, 1, 0, 0⟩).1 ∧
    (0 : Int) ≤ ((subNums 1 ⟨3, 7, 1, 0, 0⟩).1 : Int)
      - ((subNums 1 ⟨3, 7, 1, 0, 0⟩).2 : Int) ∧
    (generateMathQuestion 1 ⟨3, 7, 1, 0, 0⟩).answer
      = toString (((subNums 1 ⟨3, 7, 1, 0, 0⟩).1 : Int)
          - ((subNums 1 ⟨3, 7, 1, 0, 0⟩).2 : Int)) :=
  subtraction_answer_nonneg 1 ⟨3, 7, 1, 0, 0⟩ (by decide)

/-- C7 counterexample: for the unrecognized subject `"science"` and
`count = 0` the generator returns the empty list, which is not *fewer*
than `count` items; the all-inputs claim fails at `count = 0`. -/
theorem question_count_cex :
    (getDailyQuestions "science" 3 0 (fun _ => ⟨0, 0, 0, 0, 0⟩)).length = 0 ∧
    ¬((getDailyQuestions "science" 3 0 (fun _ => ⟨0, 0, 0, 0, 0⟩)).length < 0) :=
  ⟨rfl, Nat.not_lt_zero _⟩

/-- C7 (amended): a recognized subject (math or english in any casing)
yields exactly `count` questions; an unrecognized subject yields the
empty list — fewer than `count` whenever `count` is positive (at
`count = 0` both cases return exactly zero questions). -/
theorem question_count_amended (subject : String) (grade count : Nat)
    (rng : Nat → QDraws) :
    ((jsToLowerCase subject = "math" ∨ jsToLowerCase subject = "english") →
      (getDailyQuestions subject grade count rng).length = count) ∧
    (¬jsToLowerCase subject = "math" → ¬jsToLowerCase subject = "english" →
      getDailyQuestions subject grade count rng = [] ∧
      (0 < count → (getDailyQuestions subject grade count rng).length < count)) := by
  constructor
  · rintro (hs | hs)
    · exact getDailyQuestionsAux_len_math subject hs grade rng count
    · exact getDailyQuestionsAux_len_english subject hs grade rng count
  · intro h1 h2
    have he := getDailyQuestionsAux_unrecognized subject h1 h2 grade rng count
    refine ⟨he, fun hc => ?_⟩
    rw [show getDailyQuestions subject grade count rng
        = getDailyQuestionsAux subject grade rng count from rfl, he]
    simpa using hc

/-- Witness for C7 (amended): five math questions are exactly five;
`"science"` yields the empty list. -/
theorem question_count_amended_witness :
    (getDailyQuestions "math" 1 5 (fun _ => ⟨0, 0, 0, 0, 0⟩)).length = 5 ∧
    getDailyQuestions "science" 1 5 (fun _ => ⟨0, 0, 0, 0, 0⟩) = [] :=
  ⟨(question_count_amended "math" 1 5 (fun _ => ⟨0, 0, 0, 0, 0⟩)).1
      (Or.inl (by decide)),
   ((question_count_amended "science" 1 5 (fun _ => ⟨0, 0, 0, 0, 0⟩)).2
      (by decide) (by decide)).1⟩

/-- C10: subject matching is case-insensitive — any casing of math or
english produces the same output as the lower-case subject (for the same
random draws), and every subject that is neither math nor english in any
casing produces exactly the empty list. -/
theorem subject_matching_case_insensitive (grade count : Nat)
    (rng : Nat → QDraws) :
    getDailyQuestions "MATH" grade count rng
      = getDailyQuestions "math" grade count rng ∧
    getDailyQuestions "Math" grade count rng
      = getDailyQuestions "math" grade count rng ∧
    getDailyQuestions "ENGLISH" grade count rng
      = getDailyQuestions "english" grade count rng ∧
    getDailyQuestions "English" grade count rng
      = getDailyQuestions "english" grade count rng ∧
    ∀ s : String, ¬jsToLowerCase s = "math" → ¬jsToLowerCase s = "english" →
      getDailyQuestions s grade count rng = [] := by
  refine ⟨?_, ?_, ?_, ?_, ?_⟩
  · exact getDailyQuestionsAux_congr "MATH" "math" (by decide) grade rng count
  · exact getDailyQuestionsAux_congr "Math" "math" (by decide) grade rng count
  · exact getDailyQuestionsAux_congr "ENGLISH" "english" (by decide) grade rng count
  · exact getDailyQuestionsAux_congr "English" "english" (by decide) grade rng count
  · intro s h1 h2
    exact getDailyQuestionsAux_unrecognized s h1 h2 grade rng count

/-- Witness for C10 at concrete casings and the subject `"science"`. -/
theorem subject_matching_case_insensitive_witness :
    getDailyQuestions "MATH" 2 3 (fun _ => ⟨1, 2, 0, 4, 1⟩)
      = getDailyQuestions "math" 2 3 (fun _ => ⟨1, 2, 0, 4, 1⟩) ∧
    getDailyQuestions "science" 2 3 (fun _ => ⟨1, 2, 0, 4, 1⟩) = [] :=
  ⟨(subject_matching_case_insensitive 2 3 (fun _ => ⟨1, 2, 0, 4, 1⟩)).1,
   (subject_matching_case_insensitive 2 3 (fun _ => ⟨1, 2, 0, 4, 1⟩)).2.2.2.2
      "science" (by decide) (by decide)⟩

/-! ## The daily delivery scan (src/server/index.ts,
`sendDailyQuestionsToAllUsers`)

One tick of the scheduler walks all users; for each user it loads the
user's `student_subjects` rows, skips when there are none, skips when the
first row's `lastQuestionDate` is truthy and starts with today's date
string, skips unless `isTimeToSendEmail` matches, then generates
questions, sends one email, and sets `lastQuestionDate` of *all* of that
user's rows to the current ISO timestamp (`today ++ isoRest`).

The per-user `try/catch` (and the inner `try/catch` around the
`lastQuestionDate` update) is modelled by a per-user fault oracle: a
fault at the subjects fetch, the question generation or the email send is
caught by the outer per-user catch (no email, no update, error logged); a
fault at the update is caught by the inner catch *after* the email went
out (email sent, no update, error logged).  The outer catch around
`getAllUsers` is outside this model: the user list is an input. -/

/-- A user row as read by the scheduler (schema `users`, scheduler era). -/
structure User where
  user_id : Nat
  email : String
deriving DecidableEq

/-- A `student_subjects` row (shared/schema.ts). -/
structure StudentSubject where
  student_subject_id : Nat
  user_id : Nat
  childName : String
  subject : String
  grade : Nat
  lastQuestionDate : Option String
  preferredEmailTime : String
deriving DecidableEq

/-- Where, if anywhere, processing a given user throws during a tick. -/
inductive Fault
  | atSubjects
  | atGenerate
  | atSend
  | atUpdate
deriving DecidableEq

/-- The ambient data of one scheduler tick: the tail of
`new Date().toISOString()` after the date prefix, the current wall-clock
hour and minute, and the fault oracle. -/
structure TickSpec where
  isoRest : String
  currentHour : Int
  currentMinute : Int
  fault : Nat → Option Fault

/-- The observable outcome of processing one user in one tick. -/
structure UserResult where
  emailSent : Bool
  dateUpdated : Bool
  errorLogged : Bool
deriving DecidableEq

/-- `lastQuestionDate && lastQuestionDate.startsWith(todayDateStr)` for
the first of the user's rows. -/
def lastSentToday (r0 : StudentSubject) (today : String) : Bool :=
  jsOptTruthy r0.lastQuestionDate &&
    (match r0.lastQuestionDate with
     | none => false
     | some s => jsStartsWith s today)

/-- The body of the per-user loop of `sendDailyQuestionsToAllUsers`:
a possible throw of `getUserSubjects`, then the `!userSubjects.length`
skip, the `lastQuestionDate` skip, the `isTimeToSendEmail` gate, and
finally generation, send and update with their possible throws. -/
def processUser (today : String) (t : TickSpec) (uid : Nat) :
    List StudentSubject → UserResult
  | [] =>
    if t.fault uid = some Fault.atSubjects then ⟨false, false, true⟩
    else ⟨false, false, false⟩
  | r0 :: _ =>
    if t.fault uid = some Fault.atSubjects then ⟨false, false, true⟩
    else if lastSentToday r0 today then ⟨false, false, false⟩
    else if !(isTimeToSendEmail r0.preferredEmailTime t.currentHour t.currentMinute) then
      ⟨false, false, false⟩
    else
      match t.fault uid with
      | some Fault.atGenerate => ⟨false, false, true⟩
      | some Fault.atSend => ⟨false, false, true⟩
      | some Fault.atUpdate => ⟨true, false, true⟩
      | _ => ⟨true, true, false⟩

/-- `db.update(studentSubjects).set({lastQuestionDate}).where(user_id =
uid)`: stamp every row of the user with the current timestamp. -/
def updateUserRows (uid : Nat) (ts : String) : List StudentSubject → List StudentSubject :=
  List.map fun r =>
    if r.user_id = uid then
      { r with lastQuestionDate := some ts }
    else r

/-- What one tick of the scan produces: the evolved table, the list of
user ids that were sent an email (in order), and one `UserResult` per
scanned user. -/
structure ScanResult where
  table : List StudentSubject
  emails : List Nat
  results : List UserResult

/-- `storage.getUserSubjects(user.user_id)`: the user's rows of the
`student_subjects` table. -/
def userRows (uid : Nat) (tbl : List StudentSubject) : List StudentSubject :=
  tbl.filter fun r => decide (r.user_id = uid)

/-- The table after one user has been handled: stamped when the
`lastQuestionDate` update ran, unchanged otherwise. -/
def nextTable (today : String) (t : TickSpec) (u : User)
    (tbl : List StudentSubject) : List StudentSubject :=
  if (processUser today t u.user_id (userRows u.user_id tbl)).dateUpdated then
    updateUserRows u.user_id (today ++ t.isoRest) tbl
  else tbl

/-- One tick of `sendDailyQuestionsToAllUsers` over the given user list
and `student_subjects` table. -/
def sendDailyQuestionsToAllUsers (today : String) (t : TickSpec) :
    List User → List StudentSubject → ScanResult
  | [], tbl => ⟨tbl, [], []⟩
  | u :: us, tbl =>
    let res := processUser today t u.user_id (userRows u.user_id tbl)
    let rest := sendDailyQuestionsToAllUsers today t us (nextTable today t u tbl)
    ⟨rest.table, (if res.emailSent then [u.user_id] else []) ++ rest.emails,
      res :: rest.results⟩

/-- A sequence of ticks during one calendar day (same `today` for every
tick), threading the table and collecting all sent emails. -/
def runDay (today : String) : List TickSpec → List User → List StudentSubject →
    List StudentSubject × List Nat
  | [], _, tbl => (tbl, [])
  | t :: ts, users, tbl =>
    let r := sendDailyQuestionsToAllUsers today t users tbl
    let rest := runDay today ts users r.table
    (rest.1, r.emails ++ rest.2)

/-- All rows of user `uid` are already stamped with today. -/
def SentInv (uid : Nat) (today : String) (tbl : List StudentSubject) : Prop :=
  ∀ r ∈ tbl, r.user_id = uid → lastSentToday r today = true

theorem strDataAppend (s t : String) : (s ++ t).data = s.data ++ t.data := by
  cases s
  cases t
  rfl

theorem string_ne_empty_data (s : String) (h : ¬s = "") : ¬s.data = [] := by
  intro hd
  apply h
  cases s with
  | mk l =>
    have hl : l = [] := hd
    subst hl
    rfl

theorem lastSentToday_stamped (r : StudentSubject) (today rest : String)
    (ht : ¬today = "") (hr : r.lastQuestionDate = some (today ++ rest)) :
    lastSentToday r today = true := by
  unfold lastSentToday
  rw [hr]
  simp only [jsOptTruthy, jsStartsWith, strDataAppend, listIsLeading_append]
  cases hcase : today.data with
  | nil => exact absurd hcase (string_ne_empty_data today ht)
  | cons a l => simp

theorem scan_cons_emails (today : String) (t : TickSpec) (u : User)
    (us : List User) (tbl : List StudentSubject) :
    (sendDailyQuestionsToAllUsers today t (u :: us) tbl).emails
      = (if (processUser today t u.user_id (userRows u.user_id tbl)).emailSent
          then [u.user_id] else [])
        ++ (sendDailyQuestionsToAllUsers today t us (nextTable today t u tbl)).emails :=
  rfl

theorem scan_cons_table (today : String) (t : TickSpec) (u : User)
    (us : List User) (tbl : List StudentSubject) :
    (sendDailyQuestionsToAllUsers today t (u :: us) tbl).table
      = (sendDailyQuestionsToAllUsers today t us (nextTable today t u tbl)).table :=
  rfl

theorem scan_results_length (today : String) (t : TickSpec) :
    ∀ (users : List User) (tbl : List StudentSubject),
      (sendDailyQuestionsToAllUsers today t users tbl).results.length = users.length := by
  intro users
  induction users with
  | nil => intro tbl; rfl
  | cons u us ih =>
    intro tbl
    show ((processUser today t u.user_id (userRows u.user_id tbl))
        :: (sendDailyQuestionsToAllUsers today t us (nextTable today t u tbl)).results).length
      = us.length + 1
    rw [List.length_cons, ih]

theorem processUser_skip (today : String) (t : TickSpec) (uid : Nat)
    (rows : List StudentSubject)
    (h : rows = [] ∨ ∃ r0 rs, rows = r0 :: rs ∧ lastSentToday r0 today = true) :
    (processUser today t uid rows).emailSent = false ∧
    (processUser today t uid rows).dateUpdated = false := by
  rcases h with rfl | ⟨r0, rs, rfl, hsent⟩
  · simp only [processUser]
    by_cases h1 : t.fault uid = some Fault.atSubjects <;> simp [h1]
  · simp only [processUser]
    by_cases h1 : t.fault uid = some Fault.atSubjects
    · simp [h1]
    · simp [h1, hsent]

theorem processUser_updated_imp_sent (today : String) (t : TickSpec) (uid : Nat)
    (rows : List StudentSubject)
    (h : (processUser today t uid rows).dateUpdated = true) :
    (processUser today t uid rows).emailSent = true := by
  cases rows with
  | nil =>
    simp only [processUser] at h
    by_cases h1 : t.fault uid = some Fault.atSubjects
    · rw [if_pos h1] at h
      exact absurd h (by decide)
    · rw [if_neg h1] at h
      exact absurd h (by decide)
  | cons r0 rs =>
    simp only [processUser] at h ⊢
    by_cases h1 : t.fault uid = some Fault.atSubjects
    · rw [if_pos h1] at h
      exact absurd h (by decide)
    · rw [if_neg h1] at h ⊢
      by_cases h2 : lastSentToday r0 today = true
      · rw [if_pos h2] at h
        exact absurd h (by decide)
      · rw [if_neg h2] at h ⊢
        by_cases h3 : (!(isTimeToSendEmail r0.preferredEmailTime t.currentHour
            t.currentMinute)) = true
        · rw [if_pos h3] at h
          exact absurd h (by decide)
        · rw [if_neg h3] at h ⊢
          cases hf : t.fault uid with
          | none => rfl
          | some f =>
            cases f with
            | atSubjects => exact absurd hf h1
            | atGenerate =>
              rw [hf] at h
              exact absurd h (by decide)
            | atSend =>
              rw [hf] at h
              exact absurd h (by decide)
            | atUpdate => rfl

theorem processUser_sent_imp_updated (today : String) (t : TickSpec) (uid : Nat)
    (rows : List StudentSubject) (hup : ¬t.fault uid = some Fault.atUpdate)
    (h : (processUser today t uid rows).emailSent = true) :
    (processUser today t uid rows).dateUpdated = true := by
  cases rows with
  | nil =>
    simp only [processUser] at h
    by_cases h1 : t.fault uid = some Fault.atSubjects
    · rw [if_pos h1] at h
      exact absurd h (by decide)
    · rw [if_neg h1] at h
      exact absurd h (by decide)
  | cons r0 rs =>
    simp only [processUser] at h ⊢
    by_cases h1 : t.fault uid = some Fault.atSubjects
    · rw [if_pos h1] at h
      exact absurd h (by decide)
    · rw [if_neg h1] at h ⊢
      by_cases h2 : lastSentToday r0 today = true
      · rw [if_pos h2] at h
        exact absurd h (by decide)
      · rw [if_neg h2] at h ⊢
        by_cases h3 : (!(isTimeToSendEmail r0.preferredEmailTime t.currentHour
            t.currentMinute)) = true
        · rw [if_pos h3] at h
          exact absurd h (by decide)
        · rw [if_neg h3] at h ⊢
          cases hf : t.fault uid with
          | none => rfl
          | some f =>
            cases f with
            | atSubjects => exact absurd hf h1
            | atGenerate =>
              rw [hf] at h
              exact absurd h (by decide)
            | atSend =>
              rw [hf] at h
              exact absurd h (by decide)
            | atUpdate => exact absurd hf hup

theorem SentInv_update_self (uid : Nat) (today rest : String) (ht : ¬today = "")
    (tbl : List StudentSubject) :
    SentInv uid today (updateUserRows uid (today ++ rest) tbl) := by
  intro r hr hru
  unfold updateUserRows at hr
  rcases List.mem_map.mp hr with ⟨r0, hr0, rfl⟩
  by_cases h : r0.user_id = uid
  · rw [if_pos h]
    exact lastSentToday_stamped _ today rest ht rfl
  · rw [if_neg h] at hru
    exact absurd hru h

theorem SentInv_update_other (uid v : Nat) (today rest : String) (ht : ¬today = "")
    (tbl : List StudentSubject) (hinv : SentInv uid today tbl) :
    SentInv uid today (updateUserRows v (today ++ rest) tbl) := by
  intro r hr hru
  unfold updateUserRows at hr
  rcases List.mem_map.mp hr with ⟨r0, hr0, rfl⟩
  by_cases h : r0.user_id = v
  · rw [if_pos h]
    exact lastSentToday_stamped _ today rest ht rfl
  · rw [if_neg h] at hru ⊢
    exact hinv r0 hr0 hru

/-- Under the invariant, the per-user processing of `uid` skips: the
date check on the head row fires (or the user has no rows), so no email
and no update. -/
theorem processUser_skip_of_inv (today : String) (t : TickSpec) (uid : Nat)
    (tbl : List StudentSubject) (hinv : SentInv uid today tbl) :
    (processUser today t uid (userRows uid tbl)).emailSent = false ∧
    (processUser today t uid (userRows uid tbl)).dateUpdated = false := by
  apply processUser_skip
  cases hrows : userRows uid tbl with
  | nil => exact Or.inl rfl
  | cons r0 rs =>
    refine Or.inr ⟨r0, rs, rfl, ?_⟩
    have hmem : r0 ∈ userRows uid tbl := by
      rw [hrows]
      exact List.mem_cons_self r0 rs
    unfold userRows at hmem
    rcases List.mem_filter.mp hmem with ⟨hmem2, hdec⟩
    exact hinv r0 hmem2 (of_decide_eq_true hdec)

theorem SentInv_nextTable (today : String) (ht : ¬today = "") (t : TickSpec)
    (u : User) (tbl : List StudentSubject) (hinv : SentInv uid today tbl) :
    SentInv uid today (nextTable today t u tbl) := by
  unfold nextTable
  by_cases hd : (processUser today t u.user_id (userRows u.user_id tbl)).dateUpdated = true
  · rw [if_pos hd]
    exact SentInv_update_other uid u.user_id today t.isoRest ht tbl hinv
  · rw [if_neg hd]
    exact hinv

theorem count_head_emails (b : Bool) (x uid : Nat) (es : List Nat) :
    ((if b then [x] else []) ++ es).count uid
      = (if b = true ∧ x = uid then 1 else 0) + es.count uid := by
  cases b with
  | false => simp
  | true =>
    by_cases hx : x = uid
    · subst hx
      rw [if_pos rfl, if_pos ⟨rfl, rfl⟩, List.singleton_append,
        List.count_cons_self]
      omega
    · rw [if_pos rfl, if_neg (fun hc => hx hc.2), List.singleton_append,
        List.count_cons_of_ne (fun he => hx he.symm)]
      omega

/-- The per-user / per-day counting invariant of one scan: starting from
a stamped table the scan sends `uid` nothing and keeps the table
stamped; in any case it sends `uid` at most one email, and if it sent
one, the table ends stamped for `uid`. -/
theorem scan_uid_triple (today : String) (ht : ¬today = "") (t : TickSpec)
    (hup : ∀ v, ¬t.fault v = some Fault.atUpdate) (uid : Nat) :
    ∀ (users : List User) (tbl : List StudentSubject),
      (SentInv uid today tbl →
        (sendDailyQuestionsToAllUsers today t users tbl).emails.count uid = 0 ∧
        SentInv uid today (sendDailyQuestionsToAllUsers today t users tbl).table) ∧
      (sendDailyQuestionsToAllUsers today t users tbl).emails.count uid ≤ 1 ∧
      (1 ≤ (sendDailyQuestionsToAllUsers today t users tbl).emails.count uid →
        SentInv uid today (sendDailyQuestionsToAllUsers today t users tbl).table) := by
  intro users
  induction users with
  | nil =>
    intro tbl
    refine ⟨fun hinv => ⟨by simp [sendDailyQuestionsToAllUsers], hinv⟩,
      by simp [sendDailyQuestionsToAllUsers], fun h1 => ?_⟩
    exact absurd h1 (by simp [sendDailyQuestionsToAllUsers])
  | cons u us ih =>
    intro tbl
    have hcount : ∀ tbl2,
        (sendDailyQuestionsToAllUsers today t (u :: us) tbl2).emails.count uid
          = (if (processUser today t u.user_id (userRows u.user_id tbl2)).emailSent = true
                ∧ u.user_id = uid then 1 else 0)
            + (sendDailyQuestionsToAllUsers today t us
                (nextTable today t u tbl2)).emails.count uid := by
      intro tbl2
      rw [scan_cons_emails, count_head_emails]
    constructor
    · -- starting from a stamped table
      intro hinv
      have hnext : SentInv uid today (nextTable today t u tbl) :=
        SentInv_nextTable today ht t u tbl hinv
      have hskip : (if (processUser today t u.user_id (userRows u.user_id tbl)).emailSent = true
          ∧ u.user_id = uid then 1 else 0) = 0 := by
        by_cases hu : u.user_id = uid
        · subst hu
          have := (processUser_skip_of_inv today t u.user_id tbl hinv).1
          rw [if_neg]
          intro hc
          rw [this] at hc
          exact absurd hc.1 (by decide)
        · rw [if_neg (fun hc => hu hc.2)]
      constructor
      · rw [hcount tbl, hskip, (ih (nextTable today t u tbl)).1 hnext |>.1]
      · rw [scan_cons_table]
        exact ((ih (nextTable today t u tbl)).1 hnext).2
    · constructor
      · -- at most one email for uid over the whole scan
        rw [hcount tbl]
        by_cases hsent : (processUser today t u.user_id (userRows u.user_id tbl)).emailSent
            = true ∧ u.user_id = uid
        · rw [if_pos hsent]
          -- the send stamped uid's rows, so the rest of the scan skips uid
          have hupd : (processUser today t u.user_id (userRows u.user_id tbl)).dateUpdated
              = true :=
            processUser_sent_imp_updated today t u.user_id _ (hup u.user_id) hsent.1
          have hnext : SentInv uid today (nextTable today t u tbl) := by
            unfold nextTable
            rw [if_pos hupd, hsent.2]
            exact SentInv_update_self uid today t.isoRest ht tbl
          rw [((ih (nextTable today t u tbl)).1 hnext).1]
        · rw [if_neg hsent]
          have := (ih (nextTable today t u tbl)).2.1
          omega
      · -- a sent email leaves the table stamped for uid
        intro h1
        rw [scan_cons_table]
        rw [hcount tbl] at h1
        by_cases hsent : (processUser today t u.user_id (userRows u.user_id tbl)).emailSent
            = true ∧ u.user_id = uid
        · have hupd : (processUser today t u.user_id (userRows u.user_id tbl)).dateUpdated
              = true :=
            processUser_sent_imp_updated today t u.user_id _ (hup u.user_id) hsent.1
          have hnext : SentInv uid today (nextTable today t u tbl) := by
            unfold nextTable
            rw [if_pos hupd, hsent.2]
            exact SentInv_update_self uid today t.isoRest ht tbl
          exact ((ih (nextTable today t u tbl)).1 hnext).2
        · rw [if_neg hsent] at h1
          exact (ih (nextTable today t u tbl)).2.2 (by omega)

theorem runDay_cons_snd (today : String) (t : TickSpec) (ts : List TickSpec)
    (users : List User) (tbl : List StudentSubject) :
    (runDay today (t :: ts) users tbl).2
      = (sendDailyQuestionsToAllUsers today t users tbl).emails
        ++ (runDay today ts users
            (sendDailyQuestionsToAllUsers today t users tbl).table).2 :=
  rfl

theorem runDay_cons_fst (today : String) (t : TickSpec) (ts : List TickSpec)
    (users : List User) (tbl : List StudentSubject) :
    (runDay today (t :: ts) users tbl).1
      = (runDay today ts users
          (sendDailyQuestionsToAllUsers today t users tbl).table).1 :=
  rfl

theorem runDay_uid_triple (today : String) (ht : ¬today = "") (uid : Nat) :
    ∀ (ticks : List TickSpec),
      (∀ t ∈ ticks, ∀ v, ¬t.fault v = some Fault.atUpdate) →
      ∀ (users : List User) (tbl : List StudentSubject),
        (SentInv uid today tbl →
          (runDay today ticks users tbl).2.count uid = 0 ∧
          SentInv uid today (runDay today ticks users tbl).1) ∧
        (runDay today ticks users tbl).2.count uid ≤ 1 ∧
        (1 ≤ (runDay today ticks users tbl).2.count uid →
          SentInv uid today (runDay today ticks users tbl).1) := by
  intro ticks
  induction ticks with
  | nil =>
    intro hup users tbl
    refine ⟨fun hinv => ⟨by simp [runDay], hinv⟩, by simp [runDay], fun h1 => ?_⟩
    exact absurd h1 (by simp [runDay])
  | cons t ts ih =>
    intro hup users tbl
    have hupt : ∀ v, ¬t.fault v = some Fault.atUpdate :=
      hup t (List.mem_cons_self t ts)
    have hupts : ∀ t2 ∈ ts, ∀ v, ¬t2.fault v = some Fault.atUpdate :=
      fun t2 hm => hup t2 (List.mem_cons_of_mem t hm)
    have S := scan_uid_triple today ht t hupt uid users tbl
    have IH := ih hupts users (sendDailyQuestionsToAllUsers today t users tbl).table
    have hcnt : (runDay today (t :: ts) users tbl).2.count uid
        = (sendDailyQuestionsToAllUsers today t users tbl).emails.count uid
          + (runDay today ts users
              (sendDailyQuestionsToAllUsers today t users tbl).table).2.count uid := by
      rw [runDay_cons_snd, List.count_append]
    constructor
    · intro hinv
      obtain ⟨c0, hinvT⟩ := S.1 hinv
      obtain ⟨c0r, hinvF⟩ := IH.1 hinvT
      refine ⟨by rw [hcnt, c0, c0r], ?_⟩
      rw [runDay_cons_fst]
      exact hinvF
    · constructor
      · by_cases hc : 1 ≤ (sendDailyQuestionsToAllUsers today t users tbl).emails.count uid
        · have hinvT := S.2.2 hc
          obtain ⟨c0r, -⟩ := IH.1 hinvT
          have := S.2.1
          rw [hcnt, c0r]
          omega
        · have := IH.2.1
          rw [hcnt]
          omega
      · intro h1
        rw [runDay_cons_fst]
        by_cases hc : 1 ≤ (sendDailyQuestionsToAllUsers today t users tbl).emails.count uid
        · have hinvT := S.2.2 hc
          exact (IH.1 hinvT).2
        · rw [hcnt] at h1
          exact IH.2.2 (by omega)

/-- C2: over any number of scheduler ticks on one calendar date, the
delivery scan sends each user at most one email — a scan skips a user
whose stored last-sent date starts with today's date string, and a
successful send stamps all of that user's rows with the current
timestamp (whose date prefix is today).  The hypotheses say that the
date string is nonempty and that no `lastQuestionDate` update fails (a
failed update is caught by the source's inner `try/catch` after the
email has already gone out, which is outside what this claim —
which assumes the last-sent date is recorded — describes). -/
theorem scheduler_at_most_one_email_per_day (today : String) (ht : ¬today = "")
    (ticks : List TickSpec)
    (hup : ∀ t ∈ ticks, ∀ v, ¬t.fault v = some Fault.atUpdate)
    (users : List User) (tbl : List StudentSubject) (uid : Nat) :
    (runDay today ticks users tbl).2.count uid ≤ 1 :=
  (runDay_uid_triple today ht uid ticks hup users tbl).2.1

/-- Witness for C2: one user with preferred time `"09:00 AM"` and two
fault-free 09:00 ticks on 2025-01-01. -/
theorem scheduler_at_most_one_email_per_day_witness :
    (runDay "2025-01-01"
        [⟨"T09:00:00.000Z", 9, 0, fun _ => none⟩,
         ⟨"T09:03:00.000Z", 9, 0, fun _ => none⟩]
        [⟨7, "a@b.c"⟩]
        [⟨1, 7, "Kid", "math", 1, none, fmtTime 9 0 "AM"⟩]).2.count 7 ≤ 1 :=
  scheduler_at_most_one_email_per_day "2025-01-01" (by decide)
    [⟨"T09:00:00.000Z", 9, 0, fun _ => none⟩,
     ⟨"T09:03:00.000Z", 9, 0, fun _ => none⟩]
    (by
      intro t htm v
      simp only [List.mem_cons, List.mem_singleton] at htm
      rcases htm with rfl | rfl | htm
      · simp
      · simp
      · exact absurd htm (List.not_mem_nil t))
    [⟨7, "a@b.c"⟩]
    [⟨1, 7, "Kid", "math", 1, none, fmtTime 9 0 "AM"⟩] 7

/-! ### Fault isolation within one scan (claim C8)

The per-user `try/catch` in the scan means a fault injected for one user
cannot change what happens to any other user: the scan still produces
one outcome per user, and the emails sent to every other user are
unchanged.  The agreement argument tracks the rows of all users other
than the faulted one. -/

/-- The rows of the table belonging to users other than `i`. -/
def nonUserRows (i : Nat) (tbl : List StudentSubject) : List StudentSubject :=
  tbl.filter fun r => !decide (r.user_id = i)

theorem filter_of_filter_superset {α : Type} (p q : α → Bool)
    (h : ∀ a, p a = true → q a = true) :
    ∀ l : List α, (l.filter q).filter p = l.filter p := by
  intro l
  induction l with
  | nil => rfl
  | cons a t ih =>
    rw [List.filter_cons]
    by_cases hq : q a = true
    · rw [if_pos hq, List.filter_cons, List.filter_cons]
      by_cases hp : p a = true
      · rw [if_pos hp, if_pos hp, ih]
      · rw [if_neg hp, if_neg hp, ih]
    · rw [if_neg hq, List.filter_cons]
      by_cases hp : p a = true
      · exact absurd (h a hp) hq
      · rw [if_neg hp, ih]

theorem userRows_of_nonUserRows (u i : Nat) (hui : ¬u = i)
    (tbl : List StudentSubject) :
    userRows u tbl = userRows u (nonUserRows i tbl) := by
  unfold userRows nonUserRows
  refine (filter_of_filter_superset _ _ (fun r hr => ?_) tbl).symm
  have hru : r.user_id = u := of_decide_eq_true hr
  rw [hru]
  simp [hui]

theorem nonUserRows_update (i v : Nat) (ts : String) (tbl : List StudentSubject) :
    nonUserRows i (updateUserRows v ts tbl) = updateUserRows v ts (nonUserRows i tbl) := by
  unfold nonUserRows updateUserRows
  induction tbl with
  | nil => rfl
  | cons r t ih =>
    have huid : ((if r.user_id = v then { r with lastQuestionDate := some ts }
        else r) : StudentSubject).user_id = r.user_id := by
      by_cases hv : r.user_id = v
      · rw [if_pos hv]
      · rw [if_neg hv]
    rw [List.map_cons, List.filter_cons, List.filter_cons]
    by_cases hi : (!decide (r.user_id = i)) = true
    · rw [if_pos (by rw [huid]; exact hi), if_pos hi, List.map_cons, ih]
    · rw [if_neg (by rw [huid]; exact hi), if_neg hi, ih]

theorem update_nonUserRows_id (i : Nat) (ts : String) (tbl : List StudentSubject) :
    updateUserRows i ts (nonUserRows i tbl) = nonUserRows i tbl := by
  unfold updateUserRows
  have hcong : ∀ r ∈ nonUserRows i tbl,
      (if r.user_id = i then { r with lastQuestionDate := some ts } else r) = id r := by
    intro r hr
    have hpred := (List.mem_filter.mp hr).2
    have : ¬r.user_id = i := by
      intro hc
      rw [hc] at hpred
      simp at hpred
    rw [if_neg this]
    rfl
  rw [List.map_congr_left hcong, List.map_id]

theorem processUser_congr (today : String) (t t2 : TickSpec) (uid : Nat)
    (hfu : t2.fault uid = t.fault uid) (hch : t2.currentHour = t.currentHour)
    (hcm : t2.currentMinute = t.currentMinute) (rows : List StudentSubject) :
    processUser today t2 uid rows = processUser today t uid rows := by
  cases rows with
  | nil => simp only [processUser, hfu]
  | cons r0 rs => simp only [processUser, hfu, hch, hcm]

theorem nonUserRows_nextTable_self (today : String) (t : TickSpec) (u : User)
    (i : Nat) (hui : u.user_id = i) (tbl : List StudentSubject) :
    nonUserRows i (nextTable today t u tbl) = nonUserRows i tbl := by
  unfold nextTable
  by_cases hd : (processUser today t u.user_id (userRows u.user_id tbl)).dateUpdated
      = true
  · rw [if_pos hd, hui, nonUserRows_update, update_nonUserRows_id]
  · rw [if_neg hd]

theorem scan_agree (today : String) (t t2 : TickSpec) (i : Nat)
    (hiso : t2.isoRest = t.isoRest) (hch : t2.currentHour = t.currentHour)
    (hcm : t2.currentMinute = t.currentMinute)
    (hf : ∀ v, ¬v = i → t2.fault v = t.fault v) :
    ∀ (users : List User) (tbl1 tbl2 : List StudentSubject),
      nonUserRows i tbl1 = nonUserRows i tbl2 →
      (∀ uid, ¬uid = i →
        (sendDailyQuestionsToAllUsers today t2 users tbl1).emails.count uid
          = (sendDailyQuestionsToAllUsers today t users tbl2).emails.count uid) ∧
      nonUserRows i (sendDailyQuestionsToAllUsers today t2 users tbl1).table
        = nonUserRows i (sendDailyQuestionsToAllUsers today t users tbl2).table := by
  intro users
  induction users with
  | nil =>
    intro tbl1 tbl2 hagree
    exact ⟨fun uid _ => rfl, hagree⟩
  | cons u us ih =>
    intro tbl1 tbl2 hagree
    by_cases hui : u.user_id = i
    · -- the faulted user's own slot: both sides may act differently, but
      -- only on user i's rows and user i's emails
      have hnx : nonUserRows i (nextTable today t2 u tbl1)
          = nonUserRows i (nextTable today t u tbl2) := by
        rw [nonUserRows_nextTable_self today t2 u i hui tbl1,
          nonUserRows_nextTable_self today t u i hui tbl2, hagree]
      obtain ⟨ihc, iht⟩ := ih (nextTable today t2 u tbl1) (nextTable today t u tbl2) hnx
      constructor
      · intro uid huid
        rw [scan_cons_emails, scan_cons_emails, count_head_emails, count_head_emails,
          ihc uid huid]
        have hz : ∀ b : Bool, (if b = true ∧ u.user_id = uid then 1 else 0) = 0 := by
          intro b
          rw [if_neg]
          intro hc
          rw [hui] at hc
          exact huid hc.2.symm
        rw [hz, hz]
      · rw [scan_cons_table, scan_cons_table]
        exact iht
    · -- any other user: identical rows, identical fault, identical outcome
      have hrows : userRows u.user_id tbl1 = userRows u.user_id tbl2 := by
        rw [userRows_of_nonUserRows u.user_id i hui tbl1, hagree,
          ← userRows_of_nonUserRows u.user_id i hui tbl2]
      have hres : processUser today t2 u.user_id (userRows u.user_id tbl1)
          = processUser today t u.user_id (userRows u.user_id tbl2) := by
        rw [hrows]
        exact processUser_congr today t t2 u.user_id (hf u.user_id hui) hch hcm _
      have hnx : nonUserRows i (nextTable today t2 u tbl1)
          = nonUserRows i (nextTable today t u tbl2) := by
        unfold nextTable
        rw [hres]
        by_cases hd : (processUser today t u.user_id (userRows u.user_id tbl2)).dateUpdated
            = true
        · rw [if_pos hd, if_pos hd, nonUserRows_update, nonUserRows_update, hagree,
            hiso]
        · rw [if_neg hd, if_neg hd]
          exact hagree
      obtain ⟨ihc, iht⟩ := ih (nextTable today t2 u tbl1) (nextTable today t u tbl2) hnx
      constructor
      · intro uid huid
        rw [scan_cons_emails, scan_cons_emails, count_head_emails, count_head_emails,
          ihc uid huid, hres]
      · rw [scan_cons_table, scan_cons_table]
        exact iht

/-- C8: during one scan, an error hitting the processing of one user
(`i`) is caught by the per-user `try/catch` and only logged
(`UserResult.errorLogged` in `processUser`): the scan still produces an
outcome for every user in the list (it is never aborted), and the
emails delivered to every other user are exactly those of the fault-free
scan. -/
theorem scan_isolates_user_failures (today : String) (t : TickSpec)
    (fault2 : Nat → Option Fault) (i : Nat)
    (hf : ∀ v, ¬v = i → fault2 v = t.fault v)
    (users : List User) (tbl : List StudentSubject) :
    (sendDailyQuestionsToAllUsers today
        ⟨t.isoRest, t.currentHour, t.currentMinute, fault2⟩ users tbl).results.length
      = users.length ∧
    ∀ uid, ¬uid = i →
      (sendDailyQuestionsToAllUsers today
          ⟨t.isoRest, t.currentHour, t.currentMinute, fault2⟩ users tbl).emails.count uid
        = (sendDailyQuestionsToAllUsers today t users tbl).emails.count uid :=
  ⟨scan_results_length today ⟨t.isoRest, t.currentHour, t.currentMinute, fault2⟩
      users tbl,
   (scan_agree today t ⟨t.isoRest, t.currentHour, t.currentMinute, fault2⟩ i
      rfl rfl rfl hf users tbl tbl rfl).1⟩

/-- Witness for C8: user 7's email send throws; user 8 is processed and
still gets exactly the emails of the fault-free scan. -/
theorem scan_isolates_user_failures_witness :
    (sendDailyQuestionsToAllUsers "2025-01-01"
        ⟨"T09:00:00.000Z", 9, 0, fun v => if v = 7 then some Fault.atSend else none⟩
        [⟨7, "a@b.c"⟩, ⟨8, "d@e.f"⟩]
        [⟨1, 7, "Kid", "math", 1, none, fmtTime 9 0 "AM"⟩,
         ⟨2, 8, "Pat", "english", 2, none, fmtTime 9 0 "AM"⟩]).results.length = 2 ∧
    (sendDailyQuestionsToAllUsers "2025-01-01"
        ⟨"T09:00:00.000Z", 9, 0, fun v => if v = 7 then some Fault.atSend else none⟩
        [⟨7, "a@b.c"⟩, ⟨8, "d@e.f"⟩]
        [⟨1, 7, "Kid", "math", 1, none, fmtTime 9 0 "AM"⟩,
         ⟨2, 8, "Pat", "english", 2, none, fmtTime 9 0 "AM"⟩]).emails.count 8
      = (sendDailyQuestionsToAllUsers "2025-01-01"
          ⟨"T09:00:00.000Z", 9, 0, fun _ => none⟩
          [⟨7, "a@b.c"⟩, ⟨8, "d@e.f"⟩]
          [⟨1, 7, "Kid", "math", 1, none, fmtTime 9 0 "AM"⟩,
           ⟨2, 8, "Pat", "english", 2, none, fmtTime 9 0 "AM"⟩]).emails.count 8 :=
  ⟨(scan_isolates_user_failures "2025-01-01"
      ⟨"T09:00:00.000Z", 9, 0, fun _ => none⟩
      (fun v => if v = 7 then some Fault.atSend else none) 7
      (fun v hv => if_neg hv)
      [⟨7, "a@b.c"⟩, ⟨8, "d@e.f"⟩]
      [⟨1, 7, "Kid", "math", 1, none, fmtTime 9 0 "AM"⟩,
       ⟨2, 8, "Pat", "english", 2, none, fmtTime 9 0 "AM"⟩]).1,
   (scan_isolates_user_failures "2025-01-01"
      ⟨"T09:00:00.000Z", 9, 0, fun _ => none⟩
      (fun v => if v = 7 then some Fault.atSend else none) 7
      (fun v hv => if_neg hv)
      [⟨7, "a@b.c"⟩, ⟨8, "d@e.f"⟩]
      [⟨1, 7, "Kid", "math", 1, none, fmtTime 9 0 "AM"⟩,
       ⟨2, 8, "Pat", "english", 2, none, fmtTime 9 0 "AM"⟩]).2 8 (by decide)⟩

/-! ## The email dispatcher (src/server/email.ts, `sendDailyQuestions`)

The dispatcher builds one HTML document grouping the questions by
subject and makes a single call to the provider's send API
(`resend.emails.send`, from the verified `onboarding@resend.dev`
sender); `if (error) ... throw error` and the outer `catch` re-throws,
so a provider error propagates to the caller and no second provider
call is ever made.  The provider is modelled as an oracle from payloads
to outcomes, and the result carries the number of provider calls. -/

/-- `String.prototype.toUpperCase` restricted to ASCII (used on subject
names in the email HTML). -/
def jsToUpperChar (c : Char) : Char :=
  if 'a' ≤ c ∧ c ≤ 'z' then Char.ofNat (c.toNat - 32) else c

/-- `subject.toUpperCase()`. -/
def jsToUpperCase (s : String) : String :=
  ⟨s.data.map jsToUpperChar⟩

/-- A provider-side error (`error` from `resend.emails.send`). -/
structure ResendError where
  statusCode : Nat
  message : String
deriving DecidableEq

/-- A provider response: a message id or an error object. -/
inductive ResendOutcome
  | okId (id : String)
  | err (e : ResendError)
deriving DecidableEq

/-- The argument of `resend.emails.send`. -/
structure SendPayload where
  fromAddr : String
  toAddr : String
  subject : String
  html : String
  text : String
deriving DecidableEq

/-- One block of `formatQuestionsHtml` for question number `index`. -/
def questionHtml (q : Question) (index : Nat) : String :=
  "<div style=\"margin-bottom: 20px; padding: 10px; border: 1px solid #eee; border-radius: 5px;\">"
    ++ "<p><strong>Question " ++ toString (index + 1) ++ ":</strong> " ++ q.question ++ "</p>"
    ++ "<p><strong>Answer:</strong> " ++ q.answer ++ "</p>"
    ++ (if q.explanation = "" then ""
        else "<p><strong>Explanation:</strong> " ++ q.explanation ++ "</p>")
    ++ "</div>"

/-- `formatQuestionsHtml`: the per-question blocks joined by newlines. -/
def formatQuestionsHtml (questions : List Question) : String :=
  String.intercalate "\n" (questions.enum.map fun p => questionHtml p.2 p.1)

/-- The HTML document built by `sendDailyQuestions` (`sentAt` stands for
`new Date().toLocaleString()`). -/
def buildEmailHtml (firstName : String)
    (questionsBySubject : List (String × List Question)) (sentAt : String) : String :=
  ("<html><body style=\"font-family: Arial, sans-serif; line-height: 1.6;\">"
      ++ "<h2>Hello " ++ firstName ++ "!</h2>"
      ++ "<p style=\"color: #2563eb; font-weight: bold;\">This is a test email from EduQuest Learning Platform.</p>"
      ++ "<p>Here are your daily learning questions:</p>")
    ++ questionsBySubject.foldl (fun acc p =>
        acc ++ "<h3 style=\"color: #2563eb; margin-top: 20px;\">" ++ jsToUpperCase p.1
          ++ "</h3>" ++ formatQuestionsHtml p.2) ""
    ++ ("<p style=\"margin-top: 20px;\">Good luck with your learning journey!</p><hr>"
      ++ "<p style=\"color: #666; font-size: 12px;\">This is a test email sent on "
      ++ sentAt
      ++ ". If you received this email, it means our email system is working correctly.</p>"
      ++ "</body></html>")

/-- The payload handed to `resend.emails.send`. -/
def emailPayload (email firstName : String)
    (questionsBySubject : List (String × List Question)) (sentAt : String) : SendPayload :=
  { fromAddr := "onboarding@resend.dev",
    toAddr := email,
    subject := "Your Daily Learning Questions",
    html := buildEmailHtml firstName questionsBySubject sentAt,
    text := "This email contains your daily learning questions. Please view in an HTML-capable email client." }

/-- `sendDailyQuestions` from src/server/email.ts: one provider call;
an error is thrown to the caller.  The second component counts the
provider calls made during the attempt. -/
def sendDailyQuestions (provider : SendPayload → ResendOutcome)
    (email firstName : String)
    (questionsBySubject : List (String × List Question)) (sentAt : String) :
    Except ResendError String × Nat :=
  match provider (emailPayload email firstName questionsBySubject sentAt) with
  | ResendOutcome.okId msgId => (Except.ok msgId, 1)
  | ResendOutcome.err e => (Except.error e, 1)

/-- C5: a provider-side error (such as a 403 unverified-domain error) is
fatal to the send attempt: `sendDailyQuestions` propagates the error
object unchanged to its caller, and exactly one provider call is made —
no retry and no fallback send. -/
theorem send_error_propagates_no_retry (provider : SendPayload → ResendOutcome)
    (email firstName : String) (qbs : List (String × List Question)) (sentAt : String)
    (e : ResendError)
    (he : provider (emailPayload email firstName qbs sentAt) = ResendOutcome.err e) :
    sendDailyQuestions provider email firstName qbs sentAt = (Except.error e, 1) := by
  unfold sendDailyQuestions
  rw [he]

/-- Witness for C5 with a concrete unverified-domain error. -/
theorem send_error_propagates_no_retry_witness :
    sendDailyQuestions
      (fun _ => ResendOutcome.err ⟨403, "The domain is not verified"⟩)
      "a@b.c" "Ann" [("math", [])] "1/1/2025"
      = (Except.error ⟨403, "The domain is not verified"⟩, 1) :=
  send_error_propagates_no_retry
    (fun _ => ResendOutcome.err ⟨403, "The domain is not verified"⟩)
    "a@b.c" "Ann" [("math", [])] "1/1/2025" ⟨403, "The domain is not verified"⟩ rfl

/-! ## `GET /api/questions` (src/server/routes.ts, and the earlier
revision in src/unnamed/part_008)

The current handler requires an authenticated session (401 otherwise)
and an existing profile (404 otherwise), generates and validates the
questions per subject (404 when a subject has none for the exact grade),
attempts the email send side effect with failures only logged, and
responds 200 with the questions.  It never consults the trial or
subscription state; only the earlier revision of the endpoint does, with
a 402 `"Subscription required"`. -/

/-- `req.user` in src/server/routes.ts (schema `users` of that era).
The `trialEndsAt` date is modelled as a comparable timestamp. -/
structure RouteUser where
  id : Nat
  email : String
  firstName : String
  lastName : String
  stripeCustomerId : Option String
  stripeSubscriptionId : Option String
  isSubscribed : Bool
  trialEndsAt : Option Int
deriving DecidableEq

/-- The stored student profile (`storage.getStudentProfile`). -/
structure Profile where
  childName : String
  subjects : List String
  grade : Nat
  preferredEmailTime : String
deriving DecidableEq

/-- The HTTP responses the question endpoints can produce. -/
inductive ApiResponse
  | notAuthenticated
  | notFound (msg : String)
  | paymentRequired (msg : String)
  | okQuestions (body : List (String × List Question))
  | okList (qs : List Question)
deriving DecidableEq

/-- The subject loop of the current handler: fetch up to 20 questions
per subject (`fetch` stands for the database-backed `getDailyQuestions`
collaborator), fail when there are none, keep only the exact grade
matches, fail when none remain. -/
def collectQuestions (fetch : String → Nat → Nat → List Question) (grade : Nat) :
    List String → Option (List (String × List Question))
  | [] => some []
  | s :: rest =>
    if (fetch s grade 20).length = 0 then none
    else if ((fetch s grade 20).filter fun q => decide (q.grade = grade)).length = 0 then
      none
    else
      match collectQuestions fetch grade rest with
      | none => none
      | some acc => some ((s, (fetch s grade 20).filter fun q => decide (q.grade = grade)) :: acc)

/-- The current `GET /api/questions` handler of src/server/routes.ts.
`user` supplies the recipient of the side-effecting email send, whose
success (`sendOk`) never influences the response; no trial or
subscription field is consulted. -/
def apiQuestionsHandler (authenticated : Bool) (user : RouteUser)
    (profile : Option Profile) (fetch : String → Nat → Nat → List Question)
    (sendOk : Bool) : ApiResponse :=
  if !authenticated then ApiResponse.notAuthenticated
  else
    match profile with
    | none => ApiResponse.notFound "Profile not found"
    | some p =>
      match collectQuestions fetch p.grade p.subjects with
      | none => ApiResponse.notFound
          "No questions available for your selected grade level and subjects"
      | some body => ApiResponse.okQuestions body

/-- `const isInTrialPeriod = user.trialEndsAt && new Date(user.trialEndsAt)
> new Date()` (from `EmailQueue.processNextInQueue`). -/
def isInTrialPeriod (u : RouteUser) (now : Int) : Bool :=
  match u.trialEndsAt with
  | none => false
  | some ts => decide (now < ts)

/-- `const isSubscribed = user.isSubscribed && user.stripeSubscriptionId`
(from `EmailQueue.processNextInQueue`). -/
def isSubscribedUser (u : RouteUser) : Bool :=
  u.isSubscribed && u.stripeSubscriptionId.isSome

/-- The earlier `GET /api/questions` revision (src/unnamed/part_008):
401 without a session; 402 `"Subscription required"` when the user has
no subscription id and no unexpired trial
(`!user.stripeSubscriptionId && (!user.trialEndsAt || user.trialEndsAt <
new Date())`); otherwise 200 with the stored questions. -/
def apiQuestionsOldRevision (authenticated : Bool)
    (stripeSubscriptionId : Option String) (trialEndsAt : Option Int)
    (now : Int) (questions : List Question) : ApiResponse :=
  if !authenticated then ApiResponse.notAuthenticated
  else if stripeSubscriptionId.isNone
      && (trialEndsAt.isNone || decide (trialEndsAt.getD 0 < now)) then
    ApiResponse.paymentRequired "Subscription required"
  else ApiResponse.okList questions

/-- The user of the C1 scenario: authenticated session, no Stripe
subscription, no trial. -/
def cexUser : RouteUser := ⟨1, "u@example.com", "Ann", "Lee", none, none, false, none⟩

/-- A stored profile with one subject. -/
def cexProfile : Profile := ⟨"Kid", ["math"], 1, "09:00 AM"⟩

/-- A grade-matching question returned by the collaborator. -/
def cexQuestion : Question := ⟨1, "math", 1, "What is 1 + 1?", "2", "Adding 1 and 1 gives 2."⟩

/-- A question-fetch collaborator with stock for every subject. -/
def cexFetch : String → Nat → Nat → List Question := fun _ _ _ => [cexQuestion]

/-- C1 counterexample: an authenticated user with neither an active
trial nor a paid subscription, but with a profile, receives the
generated questions (200) from the current question-listing endpoint —
not a payment-required response. -/
theorem questions_endpoint_no_payment_gate_cex :
    isInTrialPeriod cexUser 100 = false ∧
    isSubscribedUser cexUser = false ∧
    apiQuestionsHandler true cexUser (some cexProfile) cexFetch true
      = ApiResponse.okQuestions [("math", [cexQuestion])] ∧
    ¬apiQuestionsHandler true cexUser (some cexProfile) cexFetch true
      = ApiResponse.paymentRequired "Subscription required" := by
  refine ⟨rfl, rfl, ?_, ?_⟩ <;> decide

theorem collectQuestions_total (fetch : String → Nat → Nat → List Question)
    (grade : Nat) :
    ∀ subjects : List String,
      (∀ s ∈ subjects, ¬(fetch s grade 20).length = 0 ∧
        ¬((fetch s grade 20).filter fun q => decide (q.grade = grade)).length = 0) →
      ∃ body, collectQuestions fetch grade subjects = some body := by
  intro subjects
  induction subjects with
  | nil => exact fun _ => ⟨[], rfl⟩
  | cons s rest ih =>
    intro h
    obtain ⟨h1, h2⟩ := h s (List.mem_cons_self s rest)
    obtain ⟨acc, hacc⟩ := ih fun s2 hs2 => h s2 (List.mem_cons_of_mem s hs2)
    refine ⟨(s, (fetch s grade 20).filter fun q => decide (q.grade = grade)) :: acc, ?_⟩
    simp only [collectQuestions, if_neg h1, if_neg h2, hacc]

/-- C1 (amended): the current question-listing endpoint requires only an
authenticated session and an existing profile — an authenticated user
with neither an active trial nor a paid subscription whose subjects all
have grade-matching questions still receives the questions (200); the
payment-required (402) response for such users is produced only by the
earlier revision of the endpoint (src/unnamed/part_008), while in the
current routes the trial/subscription check appears only in the
background email queue. -/
theorem questions_endpoint_gating_revisions (u : RouteUser) (p : Profile)
    (fetch : String → Nat → Nat → List Question) (now : Int) (qs : List Question)
    (hsub : u.stripeSubscriptionId = none) (hisub : u.isSubscribed = false)
    (htrial : ∀ ts, u.trialEndsAt = some ts → ts < now)
    (hstock : ∀ s ∈ p.subjects, ¬(fetch s p.grade 20).length = 0 ∧
      ¬((fetch s p.grade 20).filter fun q => decide (q.grade = p.grade)).length = 0) :
    isInTrialPeriod u now = false ∧
    isSubscribedUser u = false ∧
    (∃ body, apiQuestionsHandler true u (some p) fetch true
      = ApiResponse.okQuestions body) ∧
    apiQuestionsOldRevision true u.stripeSubscriptionId u.trialEndsAt now qs
      = ApiResponse.paymentRequired "Subscription required" := by
  refine ⟨?_, ?_, ?_, ?_⟩
  · unfold isInTrialPeriod
    cases hte : u.trialEndsAt with
    | none => rfl
    | some ts =>
      have := htrial ts hte
      simp only [decide_eq_false_iff_not]
      omega
  · unfold isSubscribedUser
    rw [hisub]
    rfl
  · obtain ⟨body, hbody⟩ := collectQuestions_total fetch p.grade p.subjects hstock
    refine ⟨body, ?_⟩
    have hred : apiQuestionsHandler true u (some p) fetch true
        = match collectQuestions fetch p.grade p.subjects with
          | none => ApiResponse.notFound
              "No questions available for your selected grade level and subjects"
          | some body => ApiResponse.okQuestions body := rfl
    rw [hred, hbody]
  · unfold apiQuestionsOldRevision
    rw [hsub]
    cases hte : u.trialEndsAt with
    | none => rfl
    | some ts =>
      have hlt := htrial ts hte
      simp [hlt]

/-- Witness for C1 (amended) at the concrete scenario of the
counterexample. -/
theorem questions_endpoint_gating_revisions_witness :
    isInTrialPeriod cexUser 100 = false ∧
    isSubscribedUser cexUser = false ∧
    (∃ body, apiQuestionsHandler true cexUser (some cexProfile) cexFetch true
      = ApiResponse.okQuestions body) ∧
    apiQuestionsOldRevision true cexUser.stripeSubscriptionId cexUser.trialEndsAt 100 []
      = ApiResponse.paymentRequired "Subscription required" :=
  questions_endpoint_gating_revisions cexUser cexProfile cexFetch 100 []
    rfl rfl (fun ts h => by simp [cexUser] at h) (by decide)

/-! ## Re-entrancy of the periodic senders (claim C4)

JavaScript is single-threaded, but both periodic senders are `async`: an
invocation suspends at every `await`, so a later timer tick can start a
second invocation while an earlier one is mid-scan.  Each sender is
modelled as a small-step transition system over interleaved invocations
(`actor` is the invocation taking the step).

`sendQuestionsToAllEligibleUsers` (src/server/routes.ts) is guarded by
the module-level boolean `isProcessingEmails`: it returns immediately
when the flag is set; otherwise it sets the flag, enqueues users into
the email queue while suspended at awaits, and clears the flag in
`finally`.

`sendDailyQuestionsToAllUsers` (src/server/index.ts) has no flag at all:
nothing stops a new invocation from entering and processing users while
another invocation is still scanning. -/

/-- State of the flag-guarded sender: the `isProcessingEmails` flag, the
invocations currently inside the function body, the user ids handed to
the email queue, and the invocations that returned at the guard. -/
structure EligibleScanState where
  isProcessingEmails : Bool
  active : List Nat
  queued : List Nat
  skipped : List Nat
deriving DecidableEq

/-- The steps of `sendQuestionsToAllEligibleUsers`, taken by invocation
`actor`: enter past the guard (only when the flag is clear), return at
the guard (only when the flag is set — queue and active set untouched),
enqueue one user (only while inside), and the `finally` that clears the
flag. -/
inductive EligibleScanStep (actor : Nat) :
    EligibleScanState → EligibleScanState → Prop
  | enter (s : EligibleScanState) (h : s.isProcessingEmails = false) :
      EligibleScanStep actor s ⟨true, actor :: s.active, s.queued, s.skipped⟩
  | guardReturn (s : EligibleScanState) (h : s.isProcessingEmails = true) :
      EligibleScanStep actor s
        ⟨s.isProcessingEmails, s.active, s.queued, actor :: s.skipped⟩
  | enqueue (u : Nat) (s : EligibleScanState) (h : actor ∈ s.active) :
      EligibleScanStep actor s
        ⟨s.isProcessingEmails, s.active, s.queued ++ [u], s.skipped⟩
  | finallyClear (s : EligibleScanState) (h : actor ∈ s.active) :
      EligibleScanStep actor s ⟨false, s.active.erase actor, s.queued, s.skipped⟩

/-- Reachability from the module-load state (flag clear, nothing active). -/
inductive EligibleScanReach : EligibleScanState → Prop
  | init : EligibleScanReach ⟨false, [], [], []⟩
  | step (actor : Nat) (s s2 : EligibleScanState) :
      EligibleScanReach s → EligibleScanStep actor s s2 → EligibleScanReach s2

/-- C4 (amended): the boolean `isProcessingEmails` flag guards only the
queue-filling scan `sendQuestionsToAllEligibleUsers` of
src/server/routes.ts, and for that scan the guard works: in every
reachable state at most one invocation is active — two of its scans
never overlap — and an invocation arriving while the flag is set can
only take the guard-return step, which leaves the flag, the active set
and the queue unchanged (it processes no user).  The daily delivery scan
of src/server/index.ts has no such flag, and its scans can overlap (see
the counterexample). -/
theorem processing_flag_guards_eligible_scan (s : EligibleScanState)
    (hreach : EligibleScanReach s) :
    s.active.length ≤ 1 ∧
    (s.isProcessingEmails = false → s.active = []) ∧
    (∀ actor s2, s.isProcessingEmails = true → ¬actor ∈ s.active →
      EligibleScanStep actor s s2 →
      s2 = ⟨s.isProcessingEmails, s.active, s.queued, actor :: s.skipped⟩) := by
  have hguard : ∀ (s0 : EligibleScanState) (actor : Nat) (s2 : EligibleScanState),
      s0.isProcessingEmails = true → ¬actor ∈ s0.active →
      EligibleScanStep actor s0 s2 →
      s2 = ⟨s0.isProcessingEmails, s0.active, s0.queued, actor :: s0.skipped⟩ := by
    intro s0 actor s2 hflag hact hstep
    cases hstep with
    | enter s0 h => rw [hflag] at h; exact absurd h (by decide)
    | guardReturn s0 h => rfl
    | enqueue u s0 h => exact absurd h hact
    | finallyClear s0 h => exact absurd h hact
  induction hreach with
  | init => exact ⟨by decide, fun _ => rfl, hguard _⟩
  | step actor s0 s2 hreach0 hstep ih =>
    refine ⟨?_, ?_, hguard _⟩
    · cases hstep with
      | enter s0 h =>
        have hempty : s0.active = [] := ih.2.1 h
        simp [hempty]
      | guardReturn s0 h => exact ih.1
      | enqueue u s0 h => exact ih.1
      | finallyClear s0 h =>
        have : (s0.active.erase actor).length ≤ s0.active.length :=
          List.length_erase_le actor s0.active
        have h1 := ih.1
        simp only []
        omega
    · cases hstep with
      | enter s0 h =>
        intro hc
        simp at hc
      | guardReturn s0 h =>
        intro hc
        have hcc : s0.isProcessingEmails = false := hc
        rw [hcc] at h
        exact absurd h (by decide)
      | enqueue u s0 h =>
        intro hflag
        exact ih.2.1 hflag
      | finallyClear s0 h =>
        intro _
        have hlen := ih.1
        have hmem := h
        have hpos : 1 ≤ s0.active.length := by
          cases hcase : s0.active with
          | nil =>
            rw [hcase] at hmem
            exact absurd hmem (List.not_mem_nil actor)
          | cons a t => simp [hcase]
        have hone : s0.active.length = 1 := by omega
        have : (s0.active.erase actor).length = 0 := by
          rw [List.length_erase_of_mem hmem, hone]
        exact List.length_eq_zero.mp this

/-- Witness for C4 (amended) at the initial state. -/
theorem processing_flag_guards_eligible_scan_witness :
    (⟨false, [], [], []⟩ : EligibleScanState).active.length ≤ 1 ∧
    ((⟨false, [], [], []⟩ : EligibleScanState).isProcessingEmails = false →
      (⟨false, [], [], []⟩ : EligibleScanState).active = []) ∧
    (∀ actor s2,
      (⟨false, [], [], []⟩ : EligibleScanState).isProcessingEmails = true →
      ¬actor ∈ (⟨false, [], [], []⟩ : EligibleScanState).active →
      EligibleScanStep actor ⟨false, [], [], []⟩ s2 →
      s2 = ⟨(⟨false, [], [], []⟩ : EligibleScanState).isProcessingEmails,
        (⟨false, [], [], []⟩ : EligibleScanState).active,
        (⟨false, [], [], []⟩ : EligibleScanState).queued,
        actor :: (⟨false, [], [], []⟩ : EligibleScanState).skipped⟩) :=
  processing_flag_guards_eligible_scan ⟨false, [], [], []⟩ EligibleScanReach.init

/-- State of the unguarded daily sender: the invocations currently
mid-scan and the `(invocation, user)` pairs processed so far. -/
structure DailyScanState where
  active : List Nat
  processed : List (Nat × Nat)
deriving DecidableEq

/-- The steps of `sendDailyQuestionsToAllUsers`, taken by invocation
`actor`: the function body has no guard, so entering is always possible;
an active invocation processes users one by one and eventually returns. -/
inductive DailyScanStep (actor : Nat) : DailyScanState → DailyScanState → Prop
  | enter (s : DailyScanState) :
      DailyScanStep actor s ⟨actor :: s.active, s.processed⟩
  | work (u : Nat) (s : DailyScanState) (h : actor ∈ s.active) :
      DailyScanStep actor s ⟨s.active, s.processed ++ [(actor, u)]⟩
  | finish (s : DailyScanState) (h : actor ∈ s.active) :
      DailyScanStep actor s ⟨s.active.erase actor, s.processed⟩

/-- Reachability from the server-start state. -/
inductive DailyScanReach : DailyScanState → Prop
  | init : DailyScanReach ⟨[], []⟩
  | step (actor : Nat) (s s2 : DailyScanState) :
      DailyScanReach s → DailyScanStep actor s s2 → DailyScanReach s2

/-- C4 counterexample: the daily scan `sendDailyQuestionsToAllUsers` of
src/server/index.ts is not guarded by any in-progress flag — a state is
reachable in which invocation 0 is still scanning while the newly
triggered invocation 1 entered anyway and processed user 5: two scans
overlap, and the newly triggered one did not return immediately. -/
theorem daily_scan_overlap_cex :
    DailyScanReach ⟨[1, 0], [(1, 5)]⟩ ∧
    (⟨[1, 0], [(1, 5)]⟩ : DailyScanState).active.length = 2 := by
  constructor
  · have h0 : DailyScanReach ⟨[0], []⟩ :=
      DailyScanReach.step 0 ⟨[], []⟩ ⟨[0], []⟩ DailyScanReach.init
        (DailyScanStep.enter ⟨[], []⟩)
    have h1 : DailyScanReach ⟨[1, 0], []⟩ :=
      DailyScanReach.step 1 ⟨[0], []⟩ ⟨[1, 0], []⟩ h0
        (DailyScanStep.enter ⟨[0], []⟩)
    exact DailyScanReach.step 1 ⟨[1, 0], []⟩ ⟨[1, 0], [(1, 5)]⟩ h1
      (DailyScanStep.work 5 ⟨[1, 0], []⟩ (by decide))
  · rfl

end SmartLearning
